import Mathlib

/-!
Verification development for the MIS dashboard repository
(`src/app.py`, `src/pages/1_Report_PPT.py`, `src/pages/2_Data_Dictionary.py`).

The pandas dataframe pipeline is shallowly embedded: a dataframe is a header
(list of column labels) together with a list of rows, a cell is either a
string, an exact rational number (standing for a float), a parsed date
(encoded as the integer y*10000 + m*100 + d, which orders dates correctly),
or a missing value (NaN/NaT).  Numbers are modelled by exact rationals; code
that can raise an uncaught exception is modelled with `Option` (`none` =
the exception escapes).
-/

inductive Cell where
  | str (s : String)
  | num (q : ℚ)
  | date (d : ℤ)
  | missing
  deriving DecidableEq, Repr

/-- A pandas dataframe: column labels plus rows of cells. -/
structure Table where
  header : List String
  rows : List (List Cell)
  deriving DecidableEq, Repr

/-- Index of a column label in a header (first occurrence), `none` if absent. -/
def colIndex : List String → String → Option ℕ
  | [], _ => none
  | h :: t, c => if h = c then some 0 else (colIndex t c).map (fun i => i + 1)

/-- Python `col in df`: membership of a label in the header. -/
def hasCol (t : Table) (c : String) : Bool :=
  (colIndex t.header c).isSome

/-- The cell of row `r` in column `c` of `t` (missing when out of range). -/
def cellAt (t : Table) (c : String) (r : List Cell) : Cell :=
  match colIndex t.header c with
  | some i => r.getD i Cell.missing
  | none => Cell.missing

/-- `df.get(c, empty series)`: the column's cells, `[]` when the column is absent. -/
def colCells (t : Table) (c : String) : List Cell :=
  match colIndex t.header c with
  | some i => t.rows.map (fun r => r.getD i Cell.missing)
  | none => []

/-- `df[c] = cells`: overwrite a column's cells in place (no-op when absent). -/
def setCol (t : Table) (c : String) (cells : List Cell) : Table :=
  match colIndex t.header c with
  | some i => { header := t.header, rows := (t.rows.zip cells).map (fun p => p.1.set i p.2) }
  | none => t

/-- pandas `Series.sum()`: add the numeric cells, skipping missing values
(an empty column sums to 0). -/
def colSum (cells : List Cell) : ℚ :=
  cells.foldr (fun c acc => match c with | Cell.num q => q + acc | _ => acc) 0

/-- Python `str.lower()` (the inputs here are ASCII column labels). -/
def pyLower (s : String) : String :=
  String.mk (s.data.map Char.toLower)

/-- pandas `Series.unique()`: distinct values keeping the first occurrence,
tracked with an accumulator of already-seen values. -/
def uniqueAux (seen : List Cell) : List Cell → List Cell
  | [] => []
  | x :: xs => if x ∈ seen then uniqueAux seen xs else x :: uniqueAux (x :: seen) xs

def uniqueFirst (l : List Cell) : List Cell :=
  uniqueAux [] l

/-- pandas `Series.nunique()`: number of distinct non-missing values. -/
def nunique (cells : List Cell) : ℕ :=
  (uniqueFirst (cells.filter (fun c => c ≠ Cell.missing))).length

/-- `(sales - cost).sum()`: the pairwise difference is missing (hence skipped
by the sum) whenever either operand is missing. -/
def pairSubSum (sales cost : List Cell) : ℚ :=
  (sales.zip cost).foldr
    (fun p acc => match p with
      | (Cell.num a, Cell.num b) => (a - b) + acc
      | _ => acc) 0

def cellRank : Cell → ℕ
  | Cell.missing => 0
  | Cell.date _ => 1
  | Cell.num _ => 2
  | Cell.str _ => 3

/-- Lexicographic order on character lists by code point. -/
def charListLt : List Char → List Char → Bool
  | [], [] => false
  | [], _ :: _ => true
  | _ :: _, [] => false
  | a :: as, b :: bs =>
      if a.toNat < b.toNat then true
      else if b.toNat < a.toNat then false
      else charListLt as bs

/-- Python `<` on strings. -/
def strLtB (s1 s2 : String) : Bool :=
  charListLt s1.data s2.data

/-- Total order on cells used to model Python `sorted` (the app only sorts
same-typed non-missing values, where this is the Python order). -/
def cellLe (a b : Cell) : Bool :=
  match a, b with
  | Cell.str s1, Cell.str s2 => s1 = s2 || strLtB s1 s2
  | Cell.num q1, Cell.num q2 => decide (q1 ≤ q2)
  | Cell.date d1, Cell.date d2 => decide (d1 ≤ d2)
  | Cell.missing, Cell.missing => true
  | a, b => decide (cellRank a < cellRank b)

def insertCell (x : Cell) : List Cell → List Cell
  | [] => [x]
  | y :: ys => if cellLe x y then x :: y :: ys else y :: insertCell x ys

/-- Python `sorted`, as a stable insertion sort under `cellLe`. -/
def sortCells : List Cell → List Cell
  | [] => []
  | x :: xs => insertCell x (sortCells xs)

/-- Digit-string value; `none` unless the string is one or more digits. -/
def parseDigits (cs : List Char) : Option ℕ :=
  if cs ≠ [] ∧ cs.all Char.isDigit then
    some (cs.foldl (fun a c => a * 10 + (c.toNat - 48)) 0)
  else none

/-- Model of `float(s)` on the fragment the dashboard exercises: an optional
sign, digits and an optional fractional part. -/
def parseNum (s : String) : Option ℚ :=
  let go : List Char → Option ℚ := fun cs =>
    match cs.span (fun c => c ≠ '.') with
    | (intPart, []) => (parseDigits intPart).map (fun n => (n : ℚ))
    | (intPart, _ :: fracPart) =>
        match parseDigits intPart, parseDigits fracPart with
        | some a, some b => some ((a : ℚ) + (b : ℚ) / (10 : ℚ) ^ fracPart.length)
        | _, _ => none
  match s.toList with
  | '-' :: rest => (go rest).map (fun q => -q)
  | cs => go cs

/-- Encode year/month/day as an order-preserving integer, validating ranges. -/
def toDateInt (y m d : ℕ) : Option ℤ :=
  if 1 ≤ m ∧ m ≤ 12 ∧ 1 ≤ d ∧ d ≤ 31 then
    some ((y : ℤ) * 10000 + (m : ℤ) * 100 + (d : ℤ))
  else none

/-- Split a character list on a separator character. -/
def splitOnChar (sep : Char) : List Char → List (List Char)
  | [] => [[]]
  | c :: rest =>
      if c = sep then [] :: splitOnChar sep rest
      else
        match splitOnChar sep rest with
        | [] => [[c]]
        | g :: gs => (c :: g) :: gs

/-- Structured date parse (model of `pd.to_datetime` on a single string cell):
strict ISO `YYYY-MM-DD`. -/
def parseISODate (s : String) : Option ℤ :=
  match splitOnChar '-' s.data with
  | [ys, ms, ds] =>
      match parseDigits ys, parseDigits ms, parseDigits ds with
      | some y, some m, some d => if ys.length = 4 then toDateInt y m d else none
      | _, _, _ => none
  | _ => none

/-- `M/D/YYYY` (dayfirst=False, as passed to `dateutil`). -/
def parseUSDate (s : String) : Option ℤ :=
  match splitOnChar '/' s.data with
  | [ms, ds, ys] =>
      match parseDigits ys, parseDigits ms, parseDigits ds with
      | some y, some m, some d => if ys.length = 4 then toDateInt y m d else none
      | _, _, _ => none
  | _ => none

/-- Model of `dateutil.parser.parse(s, dayfirst=False)` as a string parse:
lenient, accepting both the ISO and the US slash format.  It RAISES (here:
`none`) on anything else. -/
def parseLenient (s : String) : Option ℤ :=
  (parseISODate s).orElse (fun _ => parseUSDate s)

/-- One cell under `pd.to_datetime(series)` (errors="raise"): missing maps to
NaT, dates pass through, numbers are read as epoch offsets (abstracted as
their floor), strings must parse in the structured format or the whole call
raises. -/
def pdToDatetimeCell : Cell → Option Cell
  | Cell.missing => some Cell.missing
  | Cell.date d => some (Cell.date d)
  | Cell.num q => some (Cell.date ⌊q⌋)
  | Cell.str s => (parseISODate s).map Cell.date

/-- One cell under `lambda x: parser.parse(str(x), dayfirst=False)`: the
`str(...)` wrapper turns NaN into the unparseable text "nan", so a missing
cell makes `dateutil` raise; a plain float string also raises. -/
def dateutilParseCell : Cell → Option Cell
  | Cell.str s => (parseLenient s).map Cell.date
  | Cell.date d => some (Cell.date d)
  | Cell.missing => none
  | Cell.num _ => none

/-- `pd.to_numeric(cell, errors="coerce")`: numbers kept, numeric strings
parsed, anything else becomes missing (a datetime becomes its integer code,
as pandas converts datetimes to integers). -/
def toNumericCell : Cell → Cell
  | Cell.num q => Cell.num q
  | Cell.str s => match parseNum s with | some q => Cell.num q | none => Cell.missing
  | Cell.date d => Cell.num (d : ℚ)
  | Cell.missing => Cell.missing

def NUMERIC_FIELDS : List String := ["orders", "units", "gmv", "revenue", "cost", "customers"]

/-- `coerce_types` (src/app.py lines 65-75).  The date column is first given to
the structured series parse; if that raises, the per-cell `dateutil` fallback
runs inside `.apply`, and since `parser.parse` raises on an unparseable cell
BEFORE the surrounding `pd.to_datetime(..., errors="coerce")` can see it, an
unparseable cell aborts the whole call (result `none` = uncaught exception).
Numeric columns are coerced cell-wise with errors="coerce". -/
def coerce_types (t : Table) : Option Table :=
  let step1 : Option Table :=
    if hasCol t "date" then
      match (colCells t "date").mapM pdToDatetimeCell with
      | some parsed => some (setCol t "date" parsed)
      | none =>
          match (colCells t "date").mapM dateutilParseCell with
          | some parsed => some (setCol t "date" parsed)
          | none => none
    else some t
  match step1 with
  | none => none
  | some t1 =>
      some (NUMERIC_FIELDS.foldl
        (fun acc c =>
          if hasCol acc c then setCol acc c ((colCells acc c).map toNumericCell) else acc)
        t1)

/-- Python dict read `d.get(k)`: first binding of the key, if any. -/
def alookup {β : Type} : List (String × β) → String → Option β
  | [], _ => none
  | p :: rest, k => if p.1 = k then some p.2 else alookup rest k

/-- Python dict write `d[k] = v`: overwrite in place if the key exists,
append otherwise. -/
def dictSet (d : List (String × String)) (k v : String) : List (String × String) :=
  if (alookup d k).isSome then
    d.map (fun p => if p.1 = k then (k, v) else p)
  else d ++ [(k, v)]

/-- `{c.lower(): c for c in df.columns}` (src/app.py line 50): for
case-colliding labels the later column wins, as in a Python dict build. -/
def lowerCols (cols : List String) : List (String × String) :=
  cols.foldl (fun acc c => dictSet acc (pyLower c) c) []

/-- The candidate scan of `normalize_columns` (lines 53-58): first candidate
whose lowercase form is a key of the lowered-column dict wins. -/
def chooseCol (lower : List (String × String)) : List String → Option String
  | [] => none
  | cand :: rest =>
      match alookup lower (pyLower cand) with
      | some orig => some orig
      | none => chooseCol lower rest

/-- The `chosen` dict of `normalize_columns` (line 59). -/
def chosenOf (t : Table) (mapping : List (String × List String)) :
    List (String × Option String) :=
  mapping.map (fun p => (p.1, chooseCol (lowerCols t.header) p.2))

/-- One step of the `{v: k for k, v in chosen.items() if v is not None}`
comprehension: record the rename `source column ↦ standard field`, skipping
unmatched fields. -/
def renameStep (acc : List (String × String)) (p : String × Option String) :
    List (String × String) :=
  match p.2 with
  | some v => dictSet acc v p.1
  | none => acc

/-- `rename_map = {v: k for k, v in chosen.items() if v is not None}` (line 61):
built in mapping order, so a later standard field writing the same source
column overwrites the earlier entry. -/
def renameMapOf (t : Table) (mapping : List (String × List String)) :
    List (String × String) :=
  (chosenOf t mapping).foldl renameStep []

/-- `normalize_columns` (src/app.py lines 48-63): rename matched source columns
to their standard field names and report which source column satisfied each
field. -/
def normalize_columns (t : Table) (mapping : List (String × List String)) :
    Table × List (String × Option String) :=
  ({ header := t.header.map (fun c => (alookup (renameMapOf t mapping) c).getD c)
     rows := t.rows },
   chosenOf t mapping)

def STANDARD_FIELDS : List String :=
  ["date", "segment", "region", "channel", "product", "orders", "units", "gmv",
   "revenue", "cost", "customers"]

/-- `DEFAULT_MAPPING` (src/app.py lines 15-27). -/
def DEFAULT_MAPPING : List (String × List String) :=
  [("date", ["date", "Date", "txn_date"]),
   ("segment", ["segment", "customer_segment"]),
   ("region", ["region", "state", "zone"]),
   ("channel", ["channel", "sales_channel"]),
   ("product", ["product", "sku", "item_name"]),
   ("orders", ["orders", "order_count"]),
   ("units", ["units", "qty", "quantity"]),
   ("gmv", ["gmv", "gross_sales", "sales_value"]),
   ("revenue", ["revenue", "net_sales"]),
   ("cost", ["cost", "cogs", "expenses"]),
   ("customers", ["customers", "unique_customers", "active_users"])]

/-- `np.round`'s half-to-even rounding to an integer, on exact rationals. -/
def roundHalfEven (q : ℚ) : ℤ :=
  let f := ⌊q⌋
  let r := q - (f : ℚ)
  if r < 1 / 2 then f
  else if 1 / 2 < r then f + 1
  else if f % 2 = 0 then f else f + 1

/-- `np.round(x, 2)`. -/
def round2 (q : ℚ) : ℚ :=
  ((roundHalfEven (q * 100) : ℤ) : ℚ) / 100

/-- The KPI dict of `build_kpis`.  `customers = none` models the `np.nan`
placeholder; `grossMargin`/`gmPct` are `none` when the keys are absent from
the returned dict. -/
structure KpiSet where
  revenue : ℚ
  orders : ℚ
  units : ℚ
  customers : Option ℚ
  grossMargin : Option ℚ
  gmPct : Option ℚ
  deriving DecidableEq, Repr

/-- `build_kpis` (src/app.py lines 92-102).  Note line 100 computes the margin
as `(sales - cost).sum()`, a row-wise difference whose missing entries are
skipped; line 101 guards a zero sales total with Python `or 1`. -/
def build_kpis (df : Table) : KpiSet :=
  let revenue :=
    if hasCol df "revenue" then colSum (colCells df "revenue")
    else colSum (colCells df "gmv")
  let orders := colSum (colCells df "orders")
  let units := colSum (colCells df "units")
  let customers :=
    if hasCol df "customers" then some ((nunique (colCells df "customers") : ℚ)) else none
  if hasCol df "cost" && (hasCol df "revenue" || hasCol df "gmv") then
    let sales := if hasCol df "revenue" then colCells df "revenue" else colCells df "gmv"
    let s := colSum sales
    { revenue := revenue, orders := orders, units := units, customers := customers
      grossMargin := some (pairSubSum sales (colCells df "cost"))
      gmPct := some (round2 (100 * (1 - colSum (colCells df "cost") / (if s = 0 then 1 else s)))) }
  else
    { revenue := revenue, orders := orders, units := units, customers := customers
      grossMargin := none, gmPct := none }

/-- Inclusive date-range membership (line 179); comparisons against NaT or a
non-date cell are false, so such rows are dropped. -/
def cellInRange (c : Cell) (lo hi : ℤ) : Bool :=
  match c with
  | Cell.date d => decide (lo ≤ d) && decide (d ≤ hi)
  | _ => false

/-- The date-range filter (src/app.py lines 175-179): applied only when a
`date` column exists and a well-formed two-endpoint range was supplied. -/
def dateFilter (t : Table) (drange : Option (ℤ × ℤ)) : Table :=
  if hasCol t "date" then
    match drange with
    | some (lo, hi) =>
        { header := t.header
          rows := t.rows.filter (fun r => cellInRange (cellAt t "date" r) lo hi) }
    | none => t
  else t

/-- The candidate list shown by `multi_filter` (line 182):
`sorted([v for v in df[col].dropna().unique()]) if col in df else []`. -/
def multiFilterVals (t : Table) (col : String) : List Cell :=
  if hasCol t col then
    sortCells (uniqueFirst ((colCells t col).filter (fun c => c ≠ Cell.missing)))
  else []

/-- The filtering step of `multi_filter` (line 184):
`df[df[col].isin(picked)] if picked else df`. -/
def multi_filter (t : Table) (col : String) (picked : List Cell) : Table :=
  if picked.isEmpty then t
  else
    { header := t.header
      rows := t.rows.filter (fun r => picked.contains (cellAt t col r)) }

/-- The user's multiselect choice for a column (empty when nothing picked). -/
def selPicked (sel : List (String × List Cell)) (c : String) : List Cell :=
  (alookup sel c).getD []

def CATS : List String := ["segment", "region", "channel", "product"]

/-- The loop `for c in [...]: df = multi_filter(c) if c in df else df`
(lines 186-187).  `multi_filter` closes over the module-global `df`, which the
loop reassigns, so each step runs on the already-filtered table. -/
def applyCats (sel : List (String × List Cell)) (t : Table) : List String → Table
  | [] => t
  | c :: rest =>
      applyCats sel (if hasCol t c then multi_filter t c (selPicked sel c) else t) rest

/-- The candidate lists the same loop offers to the user, one entry per
categorical column present at the time it is processed, each computed from
the table as filtered so far. -/
def catsLog (sel : List (String × List Cell)) (t : Table) :
    List String → List (String × List Cell)
  | [] => []
  | c :: rest =>
      if hasCol t c then
        (c, multiFilterVals t c) :: catsLog sel (multi_filter t c (selPicked sel c)) rest
      else catsLog sel t rest

/-- The whole filter section of a render pass (lines 175-187): date filter,
then the four categorical filters in order; also returns the candidate lists
that were offered. -/
def renderFilters (t : Table) (drange : Option (ℤ × ℤ))
    (sel : List (String × List Cell)) : Table × List (String × List Cell) :=
  (applyCats sel (dateFilter t drange) CATS, catsLog sel (dateFilter t drange) CATS)

/-- `df.empty` in pandas: no rows or no columns. -/
def pandasEmpty (t : Table) : Bool :=
  t.rows.isEmpty || t.header.isEmpty

/-- Outcome of the main render (src/app.py lines 170-207): `halted` is the
`st.error` + `st.stop()` path at line 171-173; otherwise the filtered view is
built, `validate_data` only warns (lines 193-195, non-blocking), and the KPIs
are computed from the filtered view. -/
inductive RenderOutcome where
  | halted
  | rendered (kpis : KpiSet) (filteredRowCount : ℕ)
  deriving DecidableEq, Repr

/-- The render pipeline from the session dataset onwards: `st.stop()` fires
exactly when the mapped dataset is `None` or empty; there is no emptiness
check after filtering. -/
def renderMain (sessionDf : Option Table) (drange : Option (ℤ × ℤ))
    (sel : List (String × List Cell)) : RenderOutcome :=
  match sessionDf with
  | none => RenderOutcome.halted
  | some df =>
      if pandasEmpty df then RenderOutcome.halted
      else
        RenderOutcome.rendered (build_kpis (renderFilters df drange sel).1)
          (renderFilters df drange sel).1.rows.length

/-- The session store (`st.session_state`): the user-editable mapping and the
mapped dataframe. -/
structure SessionState where
  mapping : List (String × List String)
  df : Option Table
  deriving DecidableEq

/-- pages/2_Data_Dictionary.py lines 10-16: "Save mapping" stores the parsed
JSON object into `st.session_state["mapping"]`; invalid JSON (`none`) shows an
error and leaves the session unchanged. -/
def saveMapping (s : SessionState) (parsed : Option (List (String × List String))) :
    SessionState :=
  match parsed with
  | some obj => { s with mapping := obj }
  | none => s

/-- The auto-detect scan of the mapping expander (src/app.py lines 152-160):
for each candidate in order, the first source column whose lowercase form
matches is preselected. -/
def autoPreselect (rawCols : List String) : List String → Option String
  | [] => none
  | cand :: rest =>
      match rawCols.find? (fun real => pyLower real = pyLower cand) with
      | some real => some real
      | none => autoPreselect rawCols rest

/-- The column-mapping expander (src/app.py lines 147-166).  Line 150 iterates
`DEFAULT_MAPPING.items()` — the session-stored mapping is never read here, and
`normalize_columns` is never called.  `choices` holds any selectbox values the
user changed by hand (`none` = the "None" sentinel); absent entries default to
the auto-detected preselect.  The chosen source columns are renamed to their
standard names and the result is type-coerced. -/
def mappingStage (session : SessionState) (raw : Table)
    (choices : List (String × Option String)) : Option Table :=
  let mapping : List (String × Option String) :=
    DEFAULT_MAPPING.map (fun p => (p.1, (alookup choices p.1).getD (autoPreselect raw.header p.2)))
  let renameMap : List (String × String) := mapping.foldl renameStep []
  let df : Table :=
    { header := raw.header.map (fun c => (alookup renameMap c).getD c), rows := raw.rows }
  coerce_types df

/-! Concrete tables used by counterexamples and witnesses. -/

/-- A table whose date column holds a cell neither date parse accepts. -/
def tBadDate : Table :=
  { header := ["date"], rows := [[Cell.str "garbage"]] }

/-- revenue=[100,200], cost=[40,60] (the example from the KPI claim). -/
def tC2ex : Table :=
  { header := ["revenue", "cost"]
    rows := [[Cell.num 100, Cell.num 40], [Cell.num 200, Cell.num 60]] }

/-- revenue=[100,missing], cost=[40,60]: separates `(sales-cost).sum()` from
`sales.sum() - cost.sum()`. -/
def tC2bad : Table :=
  { header := ["revenue", "cost"]
    rows := [[Cell.num 100, Cell.num 40], [Cell.missing, Cell.num 60]] }

/-- Small table with revenue for plain KPI witnesses. -/
def tC3w : Table :=
  { header := ["revenue"], rows := [[Cell.num 7], [Cell.num 5]] }

/-- Two rows over segment/region: filtering segment to "A" shrinks the
candidate list the region filter offers. -/
def tC4 : Table :=
  { header := ["segment", "region"]
    rows := [[Cell.str "A", Cell.str "X"], [Cell.str "B", Cell.str "Y"]] }

def selC4 : List (String × List Cell) := [("segment", [Cell.str "A"])]

/-- One dated revenue row; a later date range filters it away. -/
def tC5 : Table :=
  { header := ["date", "revenue"], rows := [[Cell.date 20200101, Cell.num 5]] }

/-- A table already using standard field names. -/
def tC6 : Table :=
  { header := ["date", "revenue", "region"]
    rows := [[Cell.date 20200101, Cell.num 5, Cell.str "N"]] }

/-- Source table whose only column is named exactly like a standard field. -/
def tC7 : Table := { header := ["region"], rows := [[Cell.str "N"]] }

/-- The mapper example: a source column "State". -/
def tC7ex : Table := { header := ["State"], rows := [[Cell.str "NY"]] }

/-- A single source column that two standard fields both match. -/
def tC8 : Table := { header := ["sales"], rows := [[Cell.num 5]] }

/-- Segment column with a missing value, for the category-filter witness. -/
def tC9 : Table :=
  { header := ["segment"]
    rows := [[Cell.str "A"], [Cell.str "B"], [Cell.missing], [Cell.str "A"]] }

/-- A revenue table with no rows (empty filtered view). -/
def tEmptyRev : Table := { header := ["revenue"], rows := [] }

/-- A source table with a column no standard field matches. -/
def tFoo : Table := { header := ["foo"], rows := [] }

/-! ### Helper lemmas -/

theorem alookup_setMap (d : List (String × String)) (k v k2 : String) :
    alookup (d.map (fun p => if p.1 = k then (k, v) else p)) k2 =
      if k2 = k then (alookup d k).map (fun _ => v) else alookup d k2 := by
  induction d with
  | nil => simp [alookup]
  | cons p rest ih =>
    by_cases hp : p.1 = k
    · by_cases hk : k2 = k
      · subst hk; simp [alookup, hp, ih]
      · have hk2 : ¬ k = k2 := fun h => hk h.symm
        simp [alookup, hp, hk, hk2, ih]
    · by_cases hpk2 : p.1 = k2
      · have hk : ¬ k2 = k := fun h => hp (hpk2.trans h)
        simp [alookup, hp, hpk2, hk]
      · simp [alookup, hp, hpk2, ih]

theorem alookup_append_some {β : Type} (d e : List (String × β)) (k : String) (v : β)
    (h : alookup d k = some v) : alookup (d ++ e) k = some v := by
  induction d with
  | nil => simp [alookup] at h
  | cons p rest ih =>
    by_cases hp : p.1 = k
    · simp [alookup, hp] at h ⊢; exact h
    · simp [alookup, hp] at h ⊢; exact ih h

theorem alookup_append_none {β : Type} (d e : List (String × β)) (k : String)
    (h : alookup d k = none) : alookup (d ++ e) k = alookup e k := by
  induction d with
  | nil => simp [alookup]
  | cons p rest ih =>
    by_cases hp : p.1 = k
    · simp [alookup, hp] at h
    · simp [alookup, hp] at h ⊢; exact ih h

theorem alookup_dictSet (d : List (String × String)) (k v k2 : String) :
    alookup (dictSet d k v) k2 = if k2 = k then some v else alookup d k2 := by
  unfold dictSet
  by_cases hs : (alookup d k).isSome
  · rw [if_pos hs, alookup_setMap]
    by_cases hk : k2 = k
    · obtain ⟨w, hw⟩ := Option.isSome_iff_exists.mp hs
      simp [hk, hw]
    · simp [hk]
  · rw [if_neg hs]
    have hnone : alookup d k = none := Option.not_isSome_iff_eq_none.mp hs
    by_cases hk : k2 = k
    · subst hk
      rw [alookup_append_none _ _ _ hnone]
      simp [alookup]
    · cases h2 : alookup d k2 with
      | some w => rw [alookup_append_some _ _ _ _ h2]; simp [hk]
      | none =>
          have hk2 : ¬ k = k2 := fun h => hk h.symm
          rw [alookup_append_none _ _ _ h2]
          simp [alookup, hk, hk2]

theorem foldl_dictSet_inv (cols : List String) (P : String → String → Prop)
    (hstep : ∀ c ∈ cols, P (pyLower c) c) :
    ∀ acc : List (String × String), (∀ k v, alookup acc k = some v → P k v) →
    ∀ k v, alookup (cols.foldl (fun a c => dictSet a (pyLower c) c) acc) k = some v → P k v := by
  induction cols with
  | nil => intro acc hacc k v h; exact hacc k v h
  | cons c cs ih =>
    intro acc hacc k v h
    refine ih (fun d hd => hstep d (List.mem_cons_of_mem _ hd)) _ ?_ k v h
    intro k2 v2 h2
    rw [alookup_dictSet] at h2
    by_cases hk : k2 = pyLower c
    · rw [if_pos hk] at h2
      cases h2
      exact hk ▸ hstep c (List.mem_cons_self _ _)
    · rw [if_neg hk] at h2
      exact hacc _ _ h2

theorem lowerCols_inv (cols : List String) (hc : ∀ c ∈ cols, pyLower c = c)
    (k v : String) (h : alookup (lowerCols cols) k = some v) : v = k ∧ k ∈ cols := by
  refine foldl_dictSet_inv cols (fun k v => v = k ∧ k ∈ cols) ?_ [] ?_ k v h
  · intro c hcm
    exact ⟨(hc c hcm).symm, (hc c hcm).symm ▸ hcm⟩
  · intro k v habs
    simp [alookup] at habs

theorem chooseCol_some (lower : List (String × String)) (cands : List String) (u : String)
    (h : chooseCol lower cands = some u) :
    ∃ cand ∈ cands, alookup lower (pyLower cand) = some u := by
  induction cands with
  | nil => simp [chooseCol] at h
  | cons c cs ih =>
    cases hl : alookup lower (pyLower c) with
    | some orig =>
        simp only [chooseCol, hl] at h
        cases h
        exact ⟨c, List.mem_cons_self _ _, hl⟩
    | none =>
        simp only [chooseCol, hl] at h
        obtain ⟨d, hd, hdl⟩ := ih h
        exact ⟨d, List.mem_cons_of_mem _ hd, hdl⟩

theorem foldl_renameStep_inv (l : List (String × Option String)) (P : String → String → Prop)
    (hstep : ∀ p ∈ l, ∀ u, p.2 = some u → P u p.1) :
    ∀ acc : List (String × String), (∀ k v, alookup acc k = some v → P k v) →
    ∀ k v, alookup (l.foldl renameStep acc) k = some v → P k v := by
  induction l with
  | nil => intro acc hacc k v h; exact hacc k v h
  | cons p ps ih =>
    intro acc hacc k v h
    refine ih (fun q hq => hstep q (List.mem_cons_of_mem _ hq)) _ ?_ k v h
    intro k2 v2 h2
    cases hp : p.2 with
    | none =>
        simp only [renameStep, hp] at h2
        exact hacc _ _ h2
    | some u =>
        simp only [renameStep, hp] at h2
        rw [alookup_dictSet] at h2
        by_cases hk : k2 = u
        · rw [if_pos hk] at h2
          cases h2
          exact hk ▸ hstep p (List.mem_cons_self _ _) u hp
        · rw [if_neg hk] at h2
          exact hacc _ _ h2

theorem foldl_renameStep_unchanged (l : List (String × Option String)) (c : String)
    (h : ∀ p ∈ l, ∀ u, p.2 = some u → u ≠ c) :
    ∀ acc : List (String × String), alookup (l.foldl renameStep acc) c = alookup acc c := by
  induction l with
  | nil => intro acc; rfl
  | cons p ps ih =>
    intro acc
    rw [List.foldl_cons,
      ih (fun q hq => h q (List.mem_cons_of_mem _ hq)) (renameStep acc p)]
    cases hp : p.2 with
    | none => simp only [renameStep, hp]
    | some u =>
        simp only [renameStep, hp]
        rw [alookup_dictSet,
          if_neg (fun hc : c = u => h p (List.mem_cons_self _ _) u hp hc.symm)]

theorem map_id_of_mem {α : Type} (l : List α) (f : α → α) (h : ∀ a ∈ l, f a = a) :
    l.map f = l := by
  induction l with
  | nil => rfl
  | cons a t ih =>
    rw [List.map_cons, h a (List.mem_cons_self _ _),
      ih (fun b hb => h b (List.mem_cons_of_mem _ hb))]

theorem nodup_keys_eq {β : Type} (l : List (String × β)) (hnd : (l.map Prod.fst).Nodup)
    (a : String) (b1 b2 : β) (h1 : (a, b1) ∈ l) (h2 : (a, b2) ∈ l) : b1 = b2 := by
  induction l with
  | nil => simp at h1
  | cons p ps ih =>
    rw [List.map_cons, List.nodup_cons] at hnd
    rcases List.mem_cons.mp h1 with he1 | ht1
    · rcases List.mem_cons.mp h2 with he2 | ht2
      · rw [← he1] at he2; exact (Prod.mk.injEq _ _ _ _ ▸ he2).2.symm ▸ rfl
      · exfalso
        exact hnd.1 (he1 ▸ List.mem_map.mpr ⟨(a, b2), ht2, rfl⟩)
    · rcases List.mem_cons.mp h2 with he2 | ht2
      · exfalso
        exact hnd.1 (he2 ▸ List.mem_map.mpr ⟨(a, b1), ht1, rfl⟩)
      · exact ih hnd.2 ht1 ht2

theorem colCells_of_not_hasCol (t : Table) (c : String) (h : hasCol t c = false) :
    colCells t c = [] := by
  unfold hasCol at h
  cases hi : colIndex t.header c with
  | none => simp [colCells, hi]
  | some i => rw [hi] at h; simp at h

theorem colCells_length_of_hasCol (t : Table) (c : String) (h : hasCol t c = true) :
    (colCells t c).length = t.rows.length := by
  unfold hasCol at h
  cases hi : colIndex t.header c with
  | none => rw [hi] at h; simp at h
  | some i => simp [colCells, hi]

theorem colCells_of_rows_nil (t : Table) (c : String) (h : t.rows = []) :
    colCells t c = [] := by
  cases hi : colIndex t.header c with
  | none => simp [colCells, hi]
  | some i => simp [colCells, hi, h]

theorem pairSubSum_cons_num (qa qb : ℚ) (as bs : List Cell) :
    pairSubSum (Cell.num qa :: as) (Cell.num qb :: bs) = (qa - qb) + pairSubSum as bs := rfl

theorem colSum_cons_num (q : ℚ) (l : List Cell) :
    colSum (Cell.num q :: l) = q + colSum l := rfl

theorem pairSubSum_eq_sub (sales cost : List Cell) (hlen : sales.length = cost.length)
    (hs : ∀ x ∈ sales, ∃ q, x = Cell.num q) (hc : ∀ x ∈ cost, ∃ q, x = Cell.num q) :
    pairSubSum sales cost = colSum sales - colSum cost := by
  induction sales generalizing cost with
  | nil =>
    cases cost with
    | nil => simp [pairSubSum, colSum]
    | cons b bs => simp at hlen
  | cons a as ih =>
    cases cost with
    | nil => simp at hlen
    | cons b bs =>
      obtain ⟨qa, rfl⟩ := hs a (List.mem_cons_self _ _)
      obtain ⟨qb, rfl⟩ := hc b (List.mem_cons_self _ _)
      rw [pairSubSum_cons_num, colSum_cons_num, colSum_cons_num,
        ih bs (by simpa using hlen) (fun x hx => hs x (List.mem_cons_of_mem _ hx))
          (fun x hx => hc x (List.mem_cons_of_mem _ hx))]
      ring

theorem applyCats_cons (sel : List (String × List Cell)) (t : Table) (d : String)
    (ds : List String) :
    applyCats sel t (d :: ds) =
      applyCats sel (if hasCol t d then multi_filter t d (selPicked sel d) else t) ds := rfl

theorem catsLog_cons (sel : List (String × List Cell)) (t : Table) (d : String)
    (ds : List String) :
    catsLog sel t (d :: ds) =
      if hasCol t d then
        (d, multiFilterVals t d) :: catsLog sel (multi_filter t d (selPicked sel d)) ds
      else catsLog sel t ds := rfl

theorem build_kpis_pos (t : Table)
    (hc : (hasCol t "cost" && (hasCol t "revenue" || hasCol t "gmv")) = true) :
    build_kpis t =
      { revenue :=
          if hasCol t "revenue" then colSum (colCells t "revenue") else colSum (colCells t "gmv")
        orders := colSum (colCells t "orders")
        units := colSum (colCells t "units")
        customers :=
          if hasCol t "customers" then some ((nunique (colCells t "customers") : ℚ)) else none
        grossMargin :=
          some (pairSubSum
            (if hasCol t "revenue" then colCells t "revenue" else colCells t "gmv")
            (colCells t "cost"))
        gmPct :=
          some (round2 (100 * (1 - colSum (colCells t "cost") /
            (if colSum (if hasCol t "revenue" then colCells t "revenue" else colCells t "gmv") = 0
             then 1
             else colSum
               (if hasCol t "revenue" then colCells t "revenue" else colCells t "gmv"))))) } := by
  unfold build_kpis
  rw [if_pos hc]

theorem build_kpis_neg (t : Table)
    (hc : ¬ (hasCol t "cost" && (hasCol t "revenue" || hasCol t "gmv")) = true) :
    build_kpis t =
      { revenue :=
          if hasCol t "revenue" then colSum (colCells t "revenue") else colSum (colCells t "gmv")
        orders := colSum (colCells t "orders")
        units := colSum (colCells t "units")
        customers :=
          if hasCol t "customers" then some ((nunique (colCells t "customers") : ℚ)) else none
        grossMargin := none
        gmPct := none } := by
  unfold build_kpis
  rw [if_neg hc]

theorem build_kpis_revenue (t : Table) :
    (build_kpis t).revenue =
      if hasCol t "revenue" then colSum (colCells t "revenue") else colSum (colCells t "gmv") := by
  by_cases hc : (hasCol t "cost" && (hasCol t "revenue" || hasCol t "gmv")) = true
  · rw [build_kpis_pos t hc]
  · rw [build_kpis_neg t hc]

theorem catsLog_alookup (sel : List (String × List Cell)) (c : String)
    (cs1 cs2 : List String) (hpre : c ∉ cs1) :
    ∀ t : Table, hasCol (applyCats sel t cs1) c = true →
    alookup (catsLog sel t (cs1 ++ c :: cs2)) c =
      some (multiFilterVals (applyCats sel t cs1) c) := by
  induction cs1 with
  | nil =>
    intro t hcol
    unfold applyCats at hcol ⊢
    simp only [List.nil_append]
    unfold catsLog
    rw [if_pos hcol]
    simp [alookup]
  | cons d ds ih =>
    intro t hcol
    have hcd : c ≠ d := fun h => hpre (List.mem_cons.mpr (Or.inl h))
    have hdc : ¬ d = c := fun h => hcd h.symm
    have hpre2 : c ∉ ds := fun h => hpre (List.mem_cons.mpr (Or.inr h))
    by_cases hd : hasCol t d = true
    · have happ : applyCats sel t (d :: ds) =
          applyCats sel (multi_filter t d (selPicked sel d)) ds := by
        rw [applyCats_cons, if_pos hd]
      rw [happ] at hcol
      rw [List.cons_append, catsLog_cons, if_pos hd]
      have hskip : alookup ((d, multiFilterVals t d) ::
          catsLog sel (multi_filter t d (selPicked sel d)) (ds ++ c :: cs2)) c =
          alookup (catsLog sel (multi_filter t d (selPicked sel d)) (ds ++ c :: cs2)) c := by
        simp [alookup, hdc]
      rw [hskip, ih hpre2 _ hcol, happ]
    · have happ : applyCats sel t (d :: ds) = applyCats sel t ds := by
        rw [applyCats_cons, if_neg hd]
      rw [happ] at hcol
      rw [List.cons_append, catsLog_cons, if_neg hd]
      rw [ih hpre2 _ hcol, happ]

/-! ### Claim C1 -/

/-- Claim C1 (code bug in `coerce_types`, src/app.py line 71): the claim says
the Type Coercer is total and a date cell neither parse accepts becomes
missing.  In the code, when the structured series parse raises, the fallback
applies `parser.parse(str(x))` per cell, which itself raises on an
unparseable cell before the surrounding `errors="coerce"` can substitute NaT:
on the table with date column `["garbage"]` the coercion aborts with an
uncaught exception (`none`) instead of producing a missing value. -/
theorem c1_coercer_raises : coerce_types tBadDate = none := rfl

/-! ### Claim C2 -/

/-- Claim C2, counterexample: with revenue=[100, missing], cost=[40, 60] the
code's Gross Margin is `(sales - cost).sum() = 60`, while the claimed formula
`sum(sales) - sum(cost)` gives `100 - 100 = 0`. -/
theorem c2_counterexample :
    (build_kpis tC2bad).grossMargin = some 60 ∧
    colSum (colCells tC2bad "revenue") - colSum (colCells tC2bad "cost") = 0 ∧
    (build_kpis tC2bad).grossMargin ≠
      some (colSum (colCells tC2bad "revenue") - colSum (colCells tC2bad "cost")) := by
  have h1 : (build_kpis tC2bad).grossMargin = some ((100 - 40 : ℚ) + 0) := rfl
  have h2 : colSum (colCells tC2bad "revenue") = (100 : ℚ) + 0 := rfl
  have h3 : colSum (colCells tC2bad "cost") = (40 : ℚ) + (60 + 0) := rfl
  refine ⟨?_, ?_, ?_⟩
  · rw [h1]
    norm_num
  · rw [h2, h3]
    norm_num
  · rw [h1, h2, h3]
    simp only [ne_eq, Option.some.injEq]
    norm_num

/-- Claim C2 (amended): when both `cost` and a sales column (`revenue`, else
`gmv`) are present, Gross Margin is the sum of the row-wise differences
`sales − cost` (rows with a missing operand contribute nothing), which equals
`sum(sales) − sum(cost)` whenever no cell of either column is missing; GM % is
`round(100·(1 − sum(cost)/sum(sales)), 2)` with `sum(sales)` replaced by 1
when it is exactly 0; for revenue=[100,200], cost=[40,60] this gives
Gross Margin = 200 and GM % = 66.67; when either column is absent both
metrics are absent. -/
theorem c2_margin_kpis (t : Table) :
    ((hasCol t "cost" = true → (hasCol t "revenue" = true ∨ hasCol t "gmv" = true) →
       (build_kpis t).grossMargin =
         some (pairSubSum
           (if hasCol t "revenue" then colCells t "revenue" else colCells t "gmv")
           (colCells t "cost")) ∧
       (build_kpis t).gmPct =
         some (round2 (100 * (1 - colSum (colCells t "cost") /
           (if colSum (if hasCol t "revenue" then colCells t "revenue" else colCells t "gmv") = 0
            then 1
            else colSum
              (if hasCol t "revenue" then colCells t "revenue" else colCells t "gmv"))))) ∧
       ((∀ x ∈ (if hasCol t "revenue" then colCells t "revenue" else colCells t "gmv"),
           ∃ q, x = Cell.num q) →
        (∀ x ∈ colCells t "cost", ∃ q, x = Cell.num q) →
        pairSubSum
            (if hasCol t "revenue" then colCells t "revenue" else colCells t "gmv")
            (colCells t "cost") =
          colSum (if hasCol t "revenue" then colCells t "revenue" else colCells t "gmv") -
            colSum (colCells t "cost"))) ∧
     ((hasCol t "cost" = false ∨ (hasCol t "revenue" = false ∧ hasCol t "gmv" = false)) →
       (build_kpis t).grossMargin = none ∧ (build_kpis t).gmPct = none)) ∧
    ((build_kpis tC2ex).grossMargin = some 200 ∧
     (build_kpis tC2ex).gmPct = some (6667 / 100)) := by
  refine ⟨⟨?_, ?_⟩, ?_, ?_⟩
  case refine_3 =>
    have h1 : (build_kpis tC2ex).grossMargin = some ((100 - 40 : ℚ) + ((200 - 60) + 0)) := rfl
    rw [h1]
    norm_num
  case refine_4 =>
    rw [build_kpis_pos tC2ex (by decide)]
    have hsales :
        (if hasCol tC2ex "revenue" then colCells tC2ex "revenue" else colCells tC2ex "gmv") =
          [Cell.num 100, Cell.num 200] := by
      rw [if_pos (by decide : hasCol tC2ex "revenue" = true)]
      rfl
    have hcost : colCells tC2ex "cost" = [Cell.num 40, Cell.num 60] := rfl
    rw [hsales, hcost]
    have hq : colSum [Cell.num 100, Cell.num 200] = (300 : ℚ) := by
      norm_num [colSum]
    have hqc : colSum [Cell.num 40, Cell.num 60] = (100 : ℚ) := by
      norm_num [colSum]
    rw [hq, hqc, if_neg (by norm_num : ¬ (300 : ℚ) = 0)]
    have hr : round2 (100 * (1 - (100 : ℚ) / 300)) = 6667 / 100 := by
      have hfloor : ⌊(100 * (1 - (100 : ℚ) / 300)) * 100⌋ = 6666 := by
        rw [show (100 * (1 - (100 : ℚ) / 300)) * 100 = 20000 / 3 by norm_num]
        rw [Int.floor_eq_iff]
        norm_num
      unfold round2 roundHalfEven
      rw [hfloor]
      norm_num
    rw [hr]
  · intro hcost hsales
    have hc : (hasCol t "cost" && (hasCol t "revenue" || hasCol t "gmv")) = true := by
      rcases hsales with h | h <;> simp [hcost, h]
    refine ⟨by rw [build_kpis_pos t hc], by rw [build_kpis_pos t hc], ?_⟩
    intro hs hcc
    have hlen :
        (if hasCol t "revenue" then colCells t "revenue" else colCells t "gmv").length =
          (colCells t "cost").length := by
      rcases hsales with h | h
      · rw [if_pos h, colCells_length_of_hasCol t _ h, colCells_length_of_hasCol t _ hcost]
      · by_cases hr : hasCol t "revenue" = true
        · rw [if_pos hr, colCells_length_of_hasCol t _ hr, colCells_length_of_hasCol t _ hcost]
        · rw [if_neg hr, colCells_length_of_hasCol t _ h, colCells_length_of_hasCol t _ hcost]
    exact pairSubSum_eq_sub _ _ hlen hs hcc
  · intro habs
    have hc : ¬ (hasCol t "cost" && (hasCol t "revenue" || hasCol t "gmv")) = true := by
      rcases habs with h | ⟨h1, h2⟩
      · simp [h]
      · simp [h1, h2]
    rw [build_kpis_neg t hc]
    exact ⟨rfl, rfl⟩

/-- Claim C2, witness: the amended theorem applied to the concrete tables
`tC2ex` (both columns present) and `tC3w` (no cost column). -/
theorem c2_witness :
    (build_kpis tC2ex).grossMargin =
      some (pairSubSum
        (if hasCol tC2ex "revenue" then colCells tC2ex "revenue" else colCells tC2ex "gmv")
        (colCells tC2ex "cost")) ∧
    (build_kpis tC3w).grossMargin = none :=
  ⟨(((c2_margin_kpis tC2ex).1.1 (by decide) (Or.inl (by decide))).1),
   ((c2_margin_kpis tC3w).1.2 (Or.inl (by decide))).1⟩

/-! ### Claim C3 -/

/-- Claim C3: the Revenue KPI is the sum of the `revenue` column when present,
else the sum of the `gmv` column when present, else 0; and it is 0 on a view
with zero rows. -/
theorem c3_revenue_kpi (t : Table) :
    ((hasCol t "revenue" = true → (build_kpis t).revenue = colSum (colCells t "revenue")) ∧
     (hasCol t "revenue" = false → hasCol t "gmv" = true →
       (build_kpis t).revenue = colSum (colCells t "gmv")) ∧
     (hasCol t "revenue" = false → hasCol t "gmv" = false → (build_kpis t).revenue = 0)) ∧
    (t.rows = [] → (build_kpis t).revenue = 0) := by
  refine ⟨⟨?_, ?_, ?_⟩, ?_⟩
  · intro hr
    rw [build_kpis_revenue, if_pos hr]
  · intro hr hg
    rw [build_kpis_revenue, if_neg (by simp [hr])]
  · intro hr hg
    rw [build_kpis_revenue, if_neg (by simp [hr]), colCells_of_not_hasCol t _ hg]
    rfl
  · intro hrows
    rw [build_kpis_revenue]
    by_cases hr : hasCol t "revenue" = true
    · rw [if_pos hr, colCells_of_rows_nil t _ hrows]
      rfl
    · rw [if_neg hr, colCells_of_rows_nil t _ hrows]
      rfl

/-- Claim C3, witness: the Revenue KPI of `tC3w` and of the empty view. -/
theorem c3_witness :
    (build_kpis tC3w).revenue = colSum (colCells tC3w "revenue") ∧
    (build_kpis tEmptyRev).revenue = 0 :=
  ⟨(c3_revenue_kpi tC3w).1.1 (by decide), (c3_revenue_kpi tEmptyRev).2 rfl⟩

/-! ### Claim C4 -/

/-- Claim C4, counterexample: on `tC4` with the segment filter set to {"A"},
the candidate list offered for `region` is `["X"]` — computed from the
already-filtered view — not the full column's sorted distinct values
`["X", "Y"]` as the claim states. -/
theorem c4_counterexample :
    alookup (renderFilters tC4 none selC4).2 "region" = some [Cell.str "X"] ∧
    multiFilterVals tC4 "region" = [Cell.str "X", Cell.str "Y"] ∧
    alookup (renderFilters tC4 none selC4).2 "region" ≠
      some (multiFilterVals tC4 "region") := by
  decide

/-- Claim C4 (amended): the candidate values offered for a categorical filter
column are the sorted distinct non-missing values of that column in the view
current at the moment the column is processed — i.e. the dataset after the
date-range filter and after the categorical filters of the columns listed
before it in the fixed order segment, region, channel, product — not the full
unfiltered Dataset. -/
theorem c4_candidates (t : Table) (drange : Option (ℤ × ℤ))
    (sel : List (String × List Cell)) (c : String) (cs1 cs2 : List String)
    (hsplit : CATS = cs1 ++ c :: cs2) (hpre : c ∉ cs1)
    (hcol : hasCol (applyCats sel (dateFilter t drange) cs1) c = true) :
    alookup (renderFilters t drange sel).2 c =
      some (multiFilterVals (applyCats sel (dateFilter t drange) cs1) c) := by
  unfold renderFilters
  rw [hsplit]
  exact catsLog_alookup sel c cs1 cs2 hpre (dateFilter t drange) hcol

/-- Claim C4, witness: the amended statement at the concrete view `tC4` with
the segment filter applied before region is processed. -/
theorem c4_witness :
    alookup (renderFilters tC4 none selC4).2 "region" =
      some (multiFilterVals (applyCats selC4 (dateFilter tC4 none) ["segment"]) "region") :=
  c4_candidates tC4 none selC4 "region" ["segment"] ["channel", "product"]
    (by decide) (by decide) (by decide)

/-! ### Claim C5 -/

/-- Claim C5, counterexample: `tC5` is non-empty, so the render does not halt,
yet the date-range filter (Feb-Mar 2020) empties the filtered view; KPIs are
still computed — an empty dataset AFTER FILTERING does not halt the
pipeline, contradicting the claim. -/
theorem c5_counterexample :
    (renderFilters tC5 (some (20200201, 20200301)) []).1.rows = [] ∧
    renderMain (some tC5) (some (20200201, 20200301)) [] ≠ RenderOutcome.halted := by
  decide

/-- Claim C5 (amended): the render halts exactly when the session dataset is
missing or is empty after mapping (no rows or no columns); an empty view
after filtering does not halt — for any non-empty mapped dataset the
pipeline always renders, computing the KPIs of the (possibly empty) filtered
view. -/
theorem c5_halting (sdf : Option Table) (drange : Option (ℤ × ℤ))
    (sel : List (String × List Cell)) :
    (renderMain sdf drange sel = RenderOutcome.halted ↔
      (sdf = none ∨ ∃ df, sdf = some df ∧ pandasEmpty df = true)) ∧
    (∀ df, sdf = some df → pandasEmpty df = false →
      renderMain sdf drange sel =
        RenderOutcome.rendered (build_kpis (renderFilters df drange sel).1)
          (renderFilters df drange sel).1.rows.length) := by
  constructor
  · cases sdf with
    | none => simp [renderMain]
    | some df =>
        by_cases hemp : pandasEmpty df = true
        · simp [renderMain, hemp]
        · simp [renderMain, hemp]
  · intro df hdf hemp
    subst hdf
    simp [renderMain, hemp]

/-- Claim C5, witness: the amended statement at the concrete inputs — a
non-empty dataset renders, a missing dataset halts. -/
theorem c5_witness :
    renderMain (some tC5) none [] =
      RenderOutcome.rendered (build_kpis (renderFilters tC5 none []).1)
        (renderFilters tC5 none []).1.rows.length ∧
    renderMain none none [] = RenderOutcome.halted :=
  ⟨(c5_halting (some tC5) none []).2 tC5 rfl (by decide),
   ((c5_halting none none []).1).mpr (Or.inl rfl)⟩

/-! ### Claim C6 -/

/-- Claim C6: for a table whose column labels are all Standard Field names,
the Column Mapper with the default Mapping Table returns the table unchanged —
re-mapping an already-standardized table is the identity, which is the claimed
idempotence. -/
theorem c6_mapper_idempotent (t : Table)
    (h : ∀ c ∈ t.header, c ∈ STANDARD_FIELDS) :
    (normalize_columns t DEFAULT_MAPPING).1 = t := by
  have hstd : ∀ c ∈ STANDARD_FIELDS, pyLower c = c := by decide
  have hcand : ∀ p ∈ DEFAULT_MAPPING, ∀ cand ∈ p.2,
      pyLower cand ∈ STANDARD_FIELDS → pyLower cand = p.1 := by decide
  have hlow : ∀ c ∈ t.header, pyLower c = c := fun c hc => hstd c (h c hc)
  have hinv : ∀ k v, alookup (renameMapOf t DEFAULT_MAPPING) k = some v → v = k := by
    intro k v hkv
    refine foldl_renameStep_inv (chosenOf t DEFAULT_MAPPING) (fun k v => v = k) ?_ [] ?_ k v hkv
    · intro p hp u hu
      obtain ⟨q, hq, rfl⟩ := List.mem_map.mp hp
      obtain ⟨cand, hcmem, hcl⟩ := chooseCol_some _ _ _ hu
      obtain ⟨huc, hmem⟩ := lowerCols_inv t.header hlow _ _ hcl
      have hlo : pyLower cand ∈ STANDARD_FIELDS := h _ hmem
      have := hcand q hq cand hcmem hlo
      rw [huc, this]
    · intro k v habs
      simp [alookup] at habs
  have hmap : t.header.map (fun c => (alookup (renameMapOf t DEFAULT_MAPPING) c).getD c) =
      t.header := by
    refine map_id_of_mem _ _ ?_
    intro c hc
    cases hl : alookup (renameMapOf t DEFAULT_MAPPING) c with
    | none => rfl
    | some v => rw [Option.getD_some, hinv c v hl]
  unfold normalize_columns
  rw [hmap]

/-- Claim C6, witness: the already-standardized table `tC6` maps to itself. -/
theorem c6_witness : (normalize_columns tC6 DEFAULT_MAPPING).1 = tC6 :=
  c6_mapper_idempotent tC6 (by decide)

/-! ### Claim C7 -/

/-- Claim C7, counterexample: with the Mapping Table `{"region": ["zone"]}`
and source table whose only column is literally named `region`, the field
`region` is recorded as unmapped (`none`) and yet `region` IS in the output
schema (the source column passes through unchanged) — refuting the claim's
"absent from the output schema". -/
theorem c7_counterexample :
    (normalize_columns tC7 [("region", ["zone"])]).2 = [("region", none)] ∧
    "region" ∈ (normalize_columns tC7 [("region", ["zone"])]).1.header := by
  decide

/-- Claim C7 (amended): the Column Mapper scans a field's candidate list in
order and the first candidate with a case-insensitive exact match against a
source column decides the field, regardless of the later candidates; a field
with no matching candidate is recorded as unmapped and the rename introduces
no column with that field's name (though a pass-through source column already
bearing that exact name can still appear in the output schema); with Mapping
Table `{"region": ["region", "state"]}` and source column `"State"`, the
column is renamed to `region`. -/
theorem c7_candidate_scan :
    (∀ (lower : List (String × String)) (pre : List String) (cand : String)
       (post : List String) (v : String),
       (∀ d ∈ pre, alookup lower (pyLower d) = none) →
       alookup lower (pyLower cand) = some v →
       chooseCol lower (pre ++ cand :: post) = some v) ∧
    (∀ (t : Table) (mapping : List (String × List String)) (f : String)
       (cands : List String),
       (mapping.map Prod.fst).Nodup → (f, cands) ∈ mapping →
       chooseCol (lowerCols t.header) cands = none → f ∉ t.header →
       f ∉ (normalize_columns t mapping).1.header) ∧
    (normalize_columns tC7ex [("region", ["region", "state"])]).1.header = ["region"] := by
  refine ⟨?_, ?_, by decide⟩
  · intro lower pre cand post v hpre hcand
    induction pre with
    | nil => simp only [List.nil_append, chooseCol, hcand]
    | cons d ds ih =>
        have hd := hpre d (List.mem_cons_self _ _)
        rw [List.cons_append]
        simp only [chooseCol, hd]
        exact ih (fun e he => hpre e (List.mem_cons_of_mem _ he))
  · intro t mapping f cands hnd hmem hnone hf hout
    obtain ⟨c, hc, hcf⟩ := List.mem_map.mp hout
    cases hl : alookup (renameMapOf t mapping) c with
    | none =>
        rw [hl, Option.getD_none] at hcf
        exact hf (hcf ▸ hc)
    | some v =>
        rw [hl, Option.getD_some] at hcf
        rw [hcf] at hl
        have hPv : ∃ cs, (f, cs) ∈ mapping ∧ chooseCol (lowerCols t.header) cs = some c := by
          refine foldl_renameStep_inv (chosenOf t mapping)
            (fun k v => ∃ cs, (v, cs) ∈ mapping ∧ chooseCol (lowerCols t.header) cs = some k)
            ?_ [] ?_ c f hl
          · intro p hp u hu
            obtain ⟨q, hq, rfl⟩ := List.mem_map.mp hp
            exact ⟨q.2, by simpa using hq, hu⟩
          · intro k v habs
            simp [alookup] at habs
        obtain ⟨cs, hcsmem, hcschoose⟩ := hPv
        rw [nodup_keys_eq mapping hnd f cs cands hcsmem hmem] at hcschoose
        rw [hcschoose] at hnone
        exact Option.noConfusion hnone

/-- Claim C7, witness: the amended statement at concrete inputs — the first
matching candidate `"state"` selects source column `"State"` without looking
at later candidates, and an unmatched field stays out of the output schema. -/
theorem c7_witness :
    chooseCol (lowerCols tC7ex.header) (["region"] ++ "state" :: ["zzz"]) = some "State" ∧
    "segment" ∉ (normalize_columns tFoo [("segment", ["customer_segment"])]).1.header :=
  ⟨c7_candidate_scan.1 (lowerCols tC7ex.header) ["region"] "state" ["zzz"] "State"
     (by decide) (by decide),
   c7_candidate_scan.2.1 tFoo [("segment", ["customer_segment"])] "segment"
     ["customer_segment"] (by decide) (by decide) (by decide) (by decide)⟩

/-! ### Claim C8 -/

/-- Claim C8: when two different standard fields match the same source column,
the rename dict entry for that column is written by the earlier field and then
silently overwritten by the later field (last-writer-wins), so the column is
renamed to the later-processed Standard Field; no error is raised (the mapper
is a total function by construction). -/
theorem c8_last_writer_wins (t : Table) (pre mid post : List (String × List String))
    (f1 f2 c : String) (cs1 cs2 : List String)
    (hne : f1 ≠ f2)
    (h1 : chooseCol (lowerCols t.header) cs1 = some c)
    (h2 : chooseCol (lowerCols t.header) cs2 = some c)
    (hother : ∀ p ∈ pre ++ mid ++ post, chooseCol (lowerCols t.header) p.2 ≠ some c) :
    alookup (renameMapOf t (pre ++ (f1, cs1) :: mid ++ (f2, cs2) :: post)) c = some f2 ∧
    ∀ i : ℕ, t.header[i]? = some c →
      (normalize_columns t (pre ++ (f1, cs1) :: mid ++ (f2, cs2) :: post)).1.header[i]? =
        some f2 := by
  have hkey : alookup (renameMapOf t (pre ++ (f1, cs1) :: mid ++ (f2, cs2) :: post)) c =
      some f2 := by
    unfold renameMapOf chosenOf
    rw [List.map_append, List.map_cons, List.map_append, List.map_cons]
    rw [List.foldl_append, List.foldl_cons, List.foldl_append, List.foldl_cons]
    rw [foldl_renameStep_unchanged _ c ?hpost]
    case hpost =>
      intro p hp u hu
      obtain ⟨q, hq, rfl⟩ := List.mem_map.mp hp
      intro huc
      exact hother q (by simp [hq]) (huc ▸ hu)
    simp only [h2, renameStep, alookup_dictSet, eq_self_iff_true, if_true]
  refine ⟨hkey, ?_⟩
  intro i hi
  unfold normalize_columns
  simp only [List.getElem?_map, hi, Option.map_some', hkey, Option.getD_some]

/-- Claim C8, witness: fields `gmv` then `revenue` both match the source
column `sales`; the column ends up renamed `revenue`, the later field. -/
theorem c8_witness :
    alookup (renameMapOf tC8 [("gmv", ["sales"]), ("revenue", ["sales"])]) "sales" =
      some "revenue" ∧
    (normalize_columns tC8 [("gmv", ["sales"]), ("revenue", ["sales"])]).1.header[0]? =
      some "revenue" := by
  have h := c8_last_writer_wins tC8 [] [] [] "gmv" "revenue" "sales" ["sales"] ["sales"]
    (by decide) (by decide) (by decide) (by simp)
  exact ⟨h.1, h.2 0 (by decide)⟩

/-! ### Claim C9 -/

/-- Claim C9: the category filter with an empty selection returns the table
unchanged, and with a non-empty selection returns a row subset (a sublist of
the rows) whose every row has its value for the column inside the selection
set, with row count at most the input's. -/
theorem c9_category_filter (t : Table) (col : String) (picked : List Cell) :
    (picked = [] → multi_filter t col picked = t) ∧
    (picked ≠ [] →
      (multi_filter t col picked).rows.Sublist t.rows ∧
      (∀ r ∈ (multi_filter t col picked).rows, cellAt t col r ∈ picked) ∧
      (multi_filter t col picked).rows.length ≤ t.rows.length) := by
  constructor
  · intro h
    subst h
    simp [multi_filter]
  · intro h
    have hne : picked.isEmpty = false := by
      cases picked with
      | nil => exact absurd rfl h
      | cons a l => rfl
    refine ⟨?_, ?_, ?_⟩
    · simp only [multi_filter, hne, Bool.false_eq_true, if_false]
      exact List.filter_sublist _
    · intro r hr
      simp only [multi_filter, hne, Bool.false_eq_true, if_false] at hr
      have := List.of_mem_filter hr
      simpa using this
    · simp only [multi_filter, hne, Bool.false_eq_true, if_false]
      exact List.length_filter_le _ _

/-- Claim C9, witness: filtering `tC9` by the empty selection is the identity;
filtering by {"A"} keeps only rows whose segment is "A". -/
theorem c9_witness :
    multi_filter tC9 "segment" [] = tC9 ∧
    (∀ r ∈ (multi_filter tC9 "segment" [Cell.str "A"]).rows,
       cellAt tC9 "segment" r ∈ [Cell.str "A"]) ∧
    (multi_filter tC9 "segment" [Cell.str "A"]).rows.length ≤ tC9.rows.length :=
  ⟨(c9_category_filter tC9 "segment" []).1 rfl,
   ((c9_category_filter tC9 "segment" [Cell.str "A"]).2 (by decide)).2.1,
   ((c9_category_filter tC9 "segment" [Cell.str "A"]).2 (by decide)).2.2⟩

/-! ### Claim C10 -/

/-- Claim C10: saving an edited Mapping Table on the Data Dictionary page does
change the session state, but the dashboard's column-mapping stage reads only
the built-in `DEFAULT_MAPPING` (src/app.py line 150) and never calls
`normalize_columns`, so the mapped dataset is identical under any two values
of the session-stored mapping — noninterference of the user-edited mapping
with the mapping output. -/
theorem c10_mapping_noninterference (raw : Table) (choices : List (String × Option String))
    (s1 s2 : SessionState) (parsed : Option (List (String × List String))) :
    (∀ m, (saveMapping s1 (some m)).mapping = m) ∧
    mappingStage (saveMapping s1 parsed) raw choices = mappingStage s2 raw choices :=
  ⟨fun _ => rfl, rfl⟩
